import Mathlib

/-!
Shallow embedding of `PWGLF/TableProducer/strangenessbuilder.cxx`: the
strangeness builder task (V0 and cascade candidate construction), the
V0-to-cascade index task and the startup processing-mode check.

Floating-point scalars are modelled as rationals.  External library
routines are modelled as inputs of the embedded functions: the outcome
of each `fitter.process` call of the external `o2::vertexing`
two-prong DCA fitter is an explicit `FitOutcome` value, and the pure
mathematical helpers (`TMath::Sqrt`, `RecoDecay::sqrtSumOfSquares`,
`RecoDecay::cpa`, `RecoDecay::m`, the PDG mass constants) live in an
`Env` record, so every theorem below holds for an arbitrary
implementation of those collaborators.
-/

namespace StrangenessBuilder

/-- A 3-vector of rational scalars, used for positions and momenta. -/
structure Vec3 where
  x : ℚ
  y : ℚ
  z : ℚ
  deriving DecidableEq

/-- Componentwise sum of two 3-vectors. -/
def Vec3.add (a b : Vec3) : Vec3 :=
  { x := a.x + b.x, y := a.y + b.y, z := a.z + b.z }

/-- External mathematical collaborators of the builder: `TMath::Sqrt`,
`RecoDecay::sqrtSumOfSquares`, `RecoDecay::cpa` (cosine of pointing
angle of a point, a vertex and a momentum), the two-prong invariant
mass `RecoDecay::m` and the PDG masses `RecoDecay::getMassPDG` of the
proton and the charged pion.  All of them are library code outside
this repository, so they stay abstract here; witnesses fix concrete
instances. -/
structure Env where
  sqrt : ℚ → ℚ
  sqrtSumOfSquares : ℚ → ℚ → ℚ
  cpa : Vec3 → Vec3 → Vec3 → ℚ
  invMassTwoProng : Vec3 → Vec3 → ℚ → ℚ → ℚ
  massProton : ℚ
  massPiPlus : ℚ

/-- The configurables of `struct strangenessBuilder`, with the names of
the source. -/
structure Config where
  createCascades : Int
  createV0CovMats : Int
  createCascCovMats : Int
  dcanegtopv : ℚ
  dcapostopv : ℚ
  mincrossedrows : Int
  v0cospa : ℚ
  dcav0dau : ℚ
  v0radius : ℚ
  isRun2 : Int
  dcabachtopv : ℚ
  cascradius : ℚ
  dcacascdau : ℚ
  lambdaMassWindow : ℚ
  deriving DecidableEq

/-- The per-track inputs the builder reads from a daughter or bachelor
track row: the `TPCrefit` bit of `trackType()`, `tpcNClsCrossedRows()`,
`dcaXY()`, `signed1Pt()`, `globalIndex()` and the global momentum that
`getPxPyPzGlo` extracts from `getTrackParCov` of the track (a pure
function of the track, modelled as a field). -/
structure TrackIn where
  hasTPCrefit : Bool
  tpcNClsCrossedRows : Int
  dcaXY : ℚ
  signed1Pt : ℚ
  globalIndex : Int
  pGlo : Vec3
  deriving DecidableEq

/-- Outcome of one `fitter.process` call of the external two-prong DCA
fitter: either a numerical exception is raised inside the minimizer
(`throws`), or the call returns the candidate count together with the
PCA candidate position (`getPCACandidate`), the chi-square at the PCA
(`getChi2AtPCACandidate`) and the global momentum of the propagated
track 1 (`getTrack(1).getPxPyPzGlo`). -/
inductive FitOutcome where
  | throws : FitOutcome
  | ok : Int → Vec3 → ℚ → Vec3 → FitOutcome
  deriving DecidableEq

/-- The member struct `v0candidate` of `strangenessBuilder`, with the
fields of the source. -/
structure V0CandState where
  posTrackId : Int
  negTrackId : Int
  collisionId : Int
  globalIndex : Int
  posTrackX : ℚ
  negTrackX : ℚ
  pos : Vec3
  posP : Vec3
  negP : Vec3
  dcaV0dau : ℚ
  posDCAxy : ℚ
  negDCAxy : ℚ
  cosPA : ℚ
  V0radius : ℚ
  lambdaMass : ℚ
  antilambdaMass : ℚ
  deriving DecidableEq

/-- The member struct `cascadecandidate` of `strangenessBuilder`. -/
structure CascCandState where
  v0Id : Int
  bachelorId : Int
  collisionId : Int
  charge : Int
  pos : Vec3
  bachP : Vec3
  dcacascdau : ℚ
  bachDCAxy : ℚ
  cascradius : ℚ
  deriving DecidableEq

/-- Result of one `buildV0Candidate` call: the returned boolean, the
member struct after the call, the values filled into the
`hV0Criteria` histogram in order, whether `fitter.process` was invoked
and whether `hCaughtExceptions` was filled (the V0 fit call sits in a
try block, so an exception never leaves the function). -/
structure V0BuildResult where
  passed : Bool
  state : V0CandState
  fills : List ℚ
  fitInvoked : Bool
  caughtException : Bool
  deriving DecidableEq

/-- Result of one `buildCascadeCandidate` call: the returned boolean,
the member struct after the call, the `hCascadeCriteria` fills in
order, whether `fitter.process` was invoked, and `escaped` when a
numerical exception propagated out of the call (the cascade fit call
has no try block around it in the source). -/
structure CascBuildResult where
  passed : Bool
  escaped : Bool
  state : CascCandState
  fills : List ℚ
  fitInvoked : Bool
  deriving DecidableEq

/-- `strangenessBuilder::buildV0Candidate`, lines 350-438 of the
source: the ordered V0 gates (TPC refit in Run 2 mode, crossed rows,
daughter DCA to the primary vertex with `fabs`, the fit, DCA between
daughters, pointing angle, radius), updating the member struct
incrementally exactly as the source writes its fields.  The fit
outcome is an input; on `throws` the catch block fills
`hCaughtExceptions` and `nCand` keeps its initial value 0. -/
def buildV0Candidate (env : Env) (cfg : Config) (pv : Vec3)
    (posTrack negTrack : TrackIn) (lRun3 : Bool) (fit : FitOutcome)
    (s : V0CandState) : V0BuildResult :=
  if cfg.isRun2 ≠ 0 ∧ posTrack.hasTPCrefit = false ∧ lRun3 = false then
    { passed := false, state := s, fills := [0.5],
      fitInvoked := false, caughtException := false }
  else if cfg.isRun2 ≠ 0 ∧ negTrack.hasTPCrefit = false ∧ lRun3 = false then
    { passed := false, state := s, fills := [0.5],
      fitInvoked := false, caughtException := false }
  else if posTrack.tpcNClsCrossedRows < cfg.mincrossedrows ∨
      negTrack.tpcNClsCrossedRows < cfg.mincrossedrows then
    { passed := false, state := s, fills := [0.5, 1.5],
      fitInvoked := false, caughtException := false }
  else if |posTrack.dcaXY| < cfg.dcapostopv ∨ |negTrack.dcaXY| < cfg.dcanegtopv then
    { passed := false, state := s, fills := [0.5, 1.5, 2.5],
      fitInvoked := false, caughtException := false }
  else
    match fit with
    | FitOutcome.throws =>
      { passed := false, state := s, fills := [0.5, 1.5, 2.5, 3.5],
        fitInvoked := true, caughtException := true }
    | FitOutcome.ok nCand vtx chi2 _ =>
      if nCand = 0 then
        { passed := false, state := s, fills := [0.5, 1.5, 2.5, 3.5],
          fitInvoked := true, caughtException := false }
      else
        let s1 : V0CandState :=
          { s with posP := posTrack.pGlo, negP := negTrack.pGlo, pos := vtx,
                   dcaV0dau := env.sqrt chi2 }
        if s1.dcaV0dau > cfg.dcav0dau then
          { passed := false, state := s1, fills := [0.5, 1.5, 2.5, 3.5],
            fitInvoked := true, caughtException := false }
        else
          let s2 : V0CandState :=
            { s1 with cosPA := env.cpa pv vtx (Vec3.add posTrack.pGlo negTrack.pGlo) }
          if s2.cosPA < cfg.v0cospa then
            { passed := false, state := s2, fills := [0.5, 1.5, 2.5, 3.5, 4.5],
              fitInvoked := true, caughtException := false }
          else
            let s3 : V0CandState :=
              { s2 with V0radius := env.sqrtSumOfSquares vtx.x vtx.y }
            if s3.V0radius < cfg.v0radius then
              { passed := false, state := s3, fills := [0.5, 1.5, 2.5, 3.5, 4.5, 5.5],
                fitInvoked := true, caughtException := false }
            else
              let s4 : V0CandState :=
                { s3 with
                  lambdaMass := env.invMassTwoProng posTrack.pGlo negTrack.pGlo
                    env.massProton env.massPiPlus,
                  antilambdaMass := env.invMassTwoProng posTrack.pGlo negTrack.pGlo
                    env.massPiPlus env.massProton }
              { passed := true, state := s4,
                fills := [0.5, 1.5, 2.5, 3.5, 4.5, 5.5, 6.5],
                fitInvoked := true, caughtException := false }

/-- `strangenessBuilder::buildCascadeCandidate`, lines 440-495 of the
source: bachelor DCA gate (on the signed `dcaXY`, no `fabs`), charge
determination from `signed1Pt`, the lambda or antilambda mass-window
gate on the stored V0 masses, the cascade fit (no try block: a raised
exception escapes), the cascade radius gate, and the gate guarding the
daughter-pair DCA, which compares `cascadecandidate.cascradius` with
the `dcacascdau` configurable exactly as the source does.  The
`collision` and `lRun3` parameters of the source function are unused
in its body and are omitted. -/
def buildCascadeCandidate (env : Env) (cfg : Config) (bachTrack : TrackIn)
    (v0cand : V0CandState) (fit : FitOutcome) (s : CascCandState) : CascBuildResult :=
  let s0 : CascCandState := { s with bachDCAxy := bachTrack.dcaXY }
  if s0.bachDCAxy < cfg.dcabachtopv then
    { passed := false, escaped := false, state := s0, fills := [0.5],
      fitInvoked := false }
  else
    let s1 : CascCandState :=
      { s0 with charge := if bachTrack.signed1Pt > 0 then 1 else -1 }
    if s1.charge < 0 ∧ |v0cand.lambdaMass - 1.116| > cfg.lambdaMassWindow then
      { passed := false, escaped := false, state := s1, fills := [0.5, 1.5],
        fitInvoked := false }
    else if s1.charge > 0 ∧ |v0cand.antilambdaMass - 1.116| > cfg.lambdaMassWindow then
      { passed := false, escaped := false, state := s1, fills := [0.5, 1.5],
        fitInvoked := false }
    else
      match fit with
      | FitOutcome.throws =>
        { passed := false, escaped := true, state := s1, fills := [0.5, 1.5, 2.5],
          fitInvoked := true }
      | FitOutcome.ok nCand vtx chi2 track1P =>
        if nCand = 0 then
          { passed := false, escaped := false, state := s1, fills := [0.5, 1.5, 2.5],
            fitInvoked := true }
        else
          let s2 : CascCandState :=
            { s1 with bachP := track1P, pos := vtx,
                      cascradius := env.sqrtSumOfSquares vtx.x vtx.y }
          if s2.cascradius < cfg.cascradius then
            { passed := false, escaped := false, state := s2,
              fills := [0.5, 1.5, 2.5, 3.5], fitInvoked := true }
          else
            let s3 : CascCandState := { s2 with dcacascdau := env.sqrt chi2 }
            if s3.cascradius < cfg.dcacascdau then
              { passed := false, escaped := false, state := s3,
                fills := [0.5, 1.5, 2.5, 3.5, 4.5], fitInvoked := true }
            else
              { passed := true, escaped := false, state := s3,
                fills := [0.5, 1.5, 2.5, 3.5, 4.5, 5.5], fitInvoked := true }

/-- One row of the `v0data` table as filled on lines 519-529 of the
source, column by column from the `v0candidate` member struct. -/
structure V0DataRow where
  posTrackId : Int
  negTrackId : Int
  collisionId : Int
  globalIndex : Int
  posTrackX : ℚ
  negTrackX : ℚ
  pos : Vec3
  posP : Vec3
  negP : Vec3
  dcaV0dau : ℚ
  posDCAxy : ℚ
  negDCAxy : ℚ
  deriving DecidableEq

/-- One row of the `cascdata` table as filled on lines 549-561 of the
source. -/
structure CascDataRow where
  v0Id : Int
  bachelorId : Int
  collisionId : Int
  charge : Int
  pos : Vec3
  v0Pos : Vec3
  posP : Vec3
  negP : Vec3
  bachP : Vec3
  dcaV0dau : ℚ
  dcacascdau : ℚ
  posDCAxy : ℚ
  negDCAxy : ℚ
  bachDCAxy : ℚ
  deriving DecidableEq

/-- One cascade reference associated to a V0 (`V0.cascadeCandidate()`):
its bachelor track, the outcome of its cascade fit call and the
`collisionId` column of the cascade row. -/
structure CascInput where
  bachTrack : TrackIn
  fit : FitOutcome
  collisionId : Int
  deriving DecidableEq

/-- One V0 input row of `buildStrangenessTables`: the daughter tracks,
`V0.globalIndex()`, the outcome of its V0 fit call and the associated
cascade references. -/
structure V0Input where
  posTrack : TrackIn
  negTrack : TrackIn
  globalIndex : Int
  fit : FitOutcome
  cascades : List CascInput
  deriving DecidableEq

/-- The observable outcome of one `buildStrangenessTables` call: the
emitted rows, the covariance-row counts, the histogram fills, the
fitter invocation counts, the `hCaughtExceptions` count, whether an
uncaught exception aborted processing, and the member structs. -/
structure BuildOutput where
  v0Rows : List V0DataRow
  cascRows : List CascDataRow
  v0CovRows : Nat
  cascCovRows : Nat
  v0Fills : List ℚ
  cascFills : List ℚ
  v0FitCalls : Nat
  cascFitCalls : Nat
  caughtExceptions : Nat
  aborted : Bool
  v0State : V0CandState
  cascState : CascCandState

/-- The `v0data` row built from the `v0candidate` member struct on
lines 519-529 of the source. -/
def mkV0Row (st : V0CandState) : V0DataRow :=
  { posTrackId := st.posTrackId, negTrackId := st.negTrackId,
    collisionId := st.collisionId, globalIndex := st.globalIndex,
    posTrackX := st.posTrackX, negTrackX := st.negTrackX,
    pos := st.pos, posP := st.posP, negP := st.negP,
    dcaV0dau := st.dcaV0dau, posDCAxy := st.posDCAxy, negDCAxy := st.negDCAxy }

/-- The `cascdata` row built on lines 549-561 of the source:
identities from the table rows, kinematics from the member structs. -/
def mkCascRow (v0GlobalIndex : Int) (ci : CascInput) (v0st : V0CandState)
    (cst : CascCandState) : CascDataRow :=
  { v0Id := v0GlobalIndex, bachelorId := ci.bachTrack.globalIndex,
    collisionId := ci.collisionId, charge := cst.charge,
    pos := cst.pos, v0Pos := v0st.pos, posP := v0st.posP, negP := v0st.negP,
    bachP := cst.bachP, dcaV0dau := v0st.dcaV0dau, dcacascdau := cst.dcacascdau,
    posDCAxy := v0st.posDCAxy, negDCAxy := v0st.negDCAxy,
    bachDCAxy := cst.bachDCAxy }

/-- The cascade loop of `buildStrangenessTables` (lines 542-570): one
`buildCascadeCandidate` per associated cascade reference, emitting a
`cascdata` row (and counting a covariance row) on acceptance.  An
exception escaping `buildCascadeCandidate` aborts all further
processing, which models the uncaught exception terminating the
task. -/
def processCascades (env : Env) (cfg : Config) (v0GlobalIndex : Int) :
    List CascInput → BuildOutput → BuildOutput
  | [], acc => acc
  | ci :: rest, acc =>
    if acc.aborted then acc
    else
      let r := buildCascadeCandidate env cfg ci.bachTrack acc.v0State ci.fit acc.cascState
      let acc1 : BuildOutput :=
        { acc with cascState := r.state, cascFills := acc.cascFills ++ r.fills,
                   cascFitCalls := acc.cascFitCalls + (if r.fitInvoked then 1 else 0) }
      if r.escaped then
        processCascades env cfg v0GlobalIndex rest { acc1 with aborted := true }
      else if r.passed then
        let acc2 : BuildOutput :=
          { acc1 with
            cascRows := acc1.cascRows ++ [mkCascRow v0GlobalIndex ci acc1.v0State r.state],
            cascCovRows := acc1.cascCovRows +
              (if cfg.createCascCovMats ≠ 0 then 1 else 0) }
        processCascades env cfg v0GlobalIndex rest acc2
      else
        processCascades env cfg v0GlobalIndex rest acc1

/-- The V0 loop of `buildStrangenessTables` (lines 507-571): one
`buildV0Candidate` per V0 row; on acceptance a `v0data` row is
emitted (plus a covariance row when `createV0CovMats` is nonzero,
which is how the C truthiness test of the source reads), and, unless
`createCascades == 0`, the associated cascade references are
processed. -/
def processV0s (env : Env) (cfg : Config) (pv : Vec3) (lRun3 : Bool) :
    List V0Input → BuildOutput → BuildOutput
  | [], acc => acc
  | vi :: rest, acc =>
    if acc.aborted then acc
    else
      let r := buildV0Candidate env cfg pv vi.posTrack vi.negTrack lRun3 vi.fit acc.v0State
      let acc1 : BuildOutput :=
        { acc with v0State := r.state, v0Fills := acc.v0Fills ++ r.fills,
                   v0FitCalls := acc.v0FitCalls + (if r.fitInvoked then 1 else 0),
                   caughtExceptions := acc.caughtExceptions +
                     (if r.caughtException then 1 else 0) }
      if r.passed then
        let acc2 : BuildOutput :=
          { acc1 with v0Rows := acc1.v0Rows ++ [mkV0Row r.state],
                      v0CovRows := acc1.v0CovRows +
                        (if cfg.createV0CovMats ≠ 0 then 1 else 0) }
        let acc3 : BuildOutput :=
          if cfg.createCascades = 0 then acc2
          else processCascades env cfg vi.globalIndex vi.cascades acc2
        processV0s env cfg pv lRun3 rest acc3
      else
        processV0s env cfg pv lRun3 rest acc1

/-- The empty accumulator of one `buildStrangenessTables` call, given
the member structs as the call finds them. -/
def initialOutput (s0 : V0CandState) (c0 : CascCandState) : BuildOutput :=
  { v0Rows := [], cascRows := [], v0CovRows := 0, cascCovRows := 0,
    v0Fills := [], cascFills := [], v0FitCalls := 0, cascFitCalls := 0,
    caughtExceptions := 0, aborted := false, v0State := s0, cascState := c0 }

/-- `strangenessBuilder::buildStrangenessTables`, lines 497-572 of the
source. -/
def buildStrangenessTables (env : Env) (cfg : Config) (pv : Vec3) (lRun3 : Bool)
    (v0s : List V0Input) (s0 : V0CandState) (c0 : CascCandState) : BuildOutput :=
  processV0s env cfg pv lRun3 v0s (initialOutput s0 c0)

/-- One row of the `aod::Cascades` input of `produceV0ToCascMap`: the
global index of its declared parent V0 and its own global index. -/
structure CascTableIn where
  v0GlobalIndex : Int
  globalIndex : Int
  deriving DecidableEq

/-- Insertion into the `std::multimap<int, int>` of
`produceV0ToCascMap::process`: the new pair goes in front of the first
entry with a strictly greater key, hence after every entry with an
equivalent key, exactly as `std::multimap::insert` places a hinted-free
insert at the upper bound of its equivalence class. -/
def mmInsert : List (Int × Int) → Int × Int → List (Int × Int)
  | [], p => [p]
  | q :: m, p => if p.1 < q.1 then p :: q :: m else q :: mmInsert m p

/-- The multimap built on lines 103-107 of the source: every cascade
inserted in input order under the key `cascade.v0().globalIndex()`
with value `cascade.globalIndex()`. -/
def buildV0ToCascMap (cascades : List CascTableIn) : List (Int × Int) :=
  cascades.foldl (fun m c => mmInsert m (c.v0GlobalIndex, c.globalIndex)) []

/-- The `equal_range` lookup of lines 109-113 of the source: the
values of all entries whose key equals the queried V0 global index, in
stored order. -/
def mmEqualRange (m : List (Int × Int)) (k : Int) : List Int :=
  (m.filter (fun q => decide (q.1 = k))).map (fun q => q.2)

/-- `produceV0ToCascMap::process`, lines 101-117 of the source: one
`v0toCascMap` row per V0 row, holding the equal-range lookup of that
V0 in the multimap built from the cascade list. -/
def produceV0ToCascMapProcess (v0s : List Int) (cascades : List CascTableIn) :
    List (List Int) :=
  let m := buildV0ToCascMap cascades
  v0s.map (fun v0 => mmEqualRange m v0)

/-- The processing-mode check of `strangenessBuilder::init`, lines
241-246 of the source: `true` when `LOGF(fatal, ...)` fires, that is
when neither or both of `doprocessRun2` and `doprocessRun3` are
enabled. -/
def initModeCheckFatal (doprocessRun2 doprocessRun3 : Bool) : Bool :=
  if doprocessRun2 = false ∧ doprocessRun3 = false then true
  else if doprocessRun2 = true ∧ doprocessRun3 = true then true
  else false

/-- The eight fields of the `v0candidate` member struct that
`buildV0Candidate` never assigns, compared between two states. -/
def unwrittenEq (st s0 : V0CandState) : Prop :=
  st.posTrackId = s0.posTrackId ∧ st.negTrackId = s0.negTrackId ∧
  st.collisionId = s0.collisionId ∧ st.globalIndex = s0.globalIndex ∧
  st.posTrackX = s0.posTrackX ∧ st.negTrackX = s0.negTrackX ∧
  st.posDCAxy = s0.posDCAxy ∧ st.negDCAxy = s0.negDCAxy

/-- The corresponding eight columns of a `v0data` row, compared with a
state of the member struct. -/
def rowUnwrittenEq (row : V0DataRow) (s0 : V0CandState) : Prop :=
  row.posTrackId = s0.posTrackId ∧ row.negTrackId = s0.negTrackId ∧
  row.collisionId = s0.collisionId ∧ row.globalIndex = s0.globalIndex ∧
  row.posTrackX = s0.posTrackX ∧ row.negTrackX = s0.negTrackX ∧
  row.posDCAxy = s0.posDCAxy ∧ row.negDCAxy = s0.negDCAxy

/-- A concrete environment instance used by witnesses. -/
def env0 : Env :=
  { sqrt := fun _ => 0, sqrtSumOfSquares := fun _ _ => 10,
    cpa := fun _ _ _ => 1, invMassTwoProng := fun _ _ m1 _ => m1,
    massProton := 0.938272, massPiPlus := 0.13957 }

/-- The default configuration values of the source, used by witnesses
(with the cascade table enabled). -/
def cfg0 : Config :=
  { createCascades := 1, createV0CovMats := 0, createCascCovMats := 0,
    dcanegtopv := 0.1, dcapostopv := 0.1, mincrossedrows := 70,
    v0cospa := 0.995, dcav0dau := 1, v0radius := 5, isRun2 := 0,
    dcabachtopv := 0.05, cascradius := 0.9, dcacascdau := 1,
    lambdaMassWindow := 0.01 }

/-- The origin, used as primary vertex and as zero vector in witnesses. -/
def pv0 : Vec3 := { x := 0, y := 0, z := 0 }

/-- A concrete fitted vertex position used by witnesses. -/
def vtx0 : Vec3 := { x := 3, y := 4, z := 0 }

/-- A concrete propagated track-1 momentum used by witnesses. -/
def t1P0 : Vec3 := { x := 1, y := 0, z := 0 }

/-- A zero-initialized `v0candidate` member struct. -/
def v0Zero : V0CandState :=
  { posTrackId := 0, negTrackId := 0, collisionId := 0, globalIndex := 0,
    posTrackX := 0, negTrackX := 0, pos := pv0, posP := pv0, negP := pv0,
    dcaV0dau := 0, posDCAxy := 0, negDCAxy := 0, cosPA := 0, V0radius := 0,
    lambdaMass := 0, antilambdaMass := 0 }

/-- A `v0candidate` state whose mass hypotheses sit exactly on the
lambda mass, used by cascade witnesses. -/
def v0M : V0CandState := { v0Zero with lambdaMass := 1.116, antilambdaMass := 1.116 }

/-- A zero-initialized `cascadecandidate` member struct. -/
def cascZero : CascCandState :=
  { v0Id := 0, bachelorId := 0, collisionId := 0, charge := 0, pos := pv0,
    bachP := pv0, dcacascdau := 0, bachDCAxy := 0, cascradius := 0 }

/-- A concrete positive daughter track that passes every pre-fit gate
of the default configuration. -/
def posT0 : TrackIn :=
  { hasTPCrefit := true, tpcNClsCrossedRows := 100, dcaXY := 1,
    signed1Pt := 1, globalIndex := 1, pGlo := { x := 1, y := 0, z := 0 } }

/-- A concrete negative daughter track that passes every pre-fit gate
of the default configuration. -/
def negT0 : TrackIn :=
  { hasTPCrefit := true, tpcNClsCrossedRows := 100, dcaXY := -1,
    signed1Pt := -1, globalIndex := 2, pGlo := { x := 0, y := 1, z := 0 } }

/-- A concrete bachelor track with positive curvature that passes the
bachelor DCA gate of the default configuration. -/
def bachT0 : TrackIn :=
  { hasTPCrefit := true, tpcNClsCrossedRows := 100, dcaXY := 1,
    signed1Pt := 1, globalIndex := 3, pGlo := { x := 0, y := 0, z := 1 } }

/-- A positive daughter track whose transverse DCA to the primary
vertex is below the default threshold. -/
def posLowDca : TrackIn := { posT0 with dcaXY := 0.01 }

/-- A bachelor track with a negative signed `dcaXY` of large
magnitude. -/
def bachNegDca : TrackIn := { bachT0 with dcaXY := -100 }

/-- A successful fit outcome with one candidate, vertex `vtx0` and
chi-square zero. -/
def fitOk0 : FitOutcome := FitOutcome.ok 1 vtx0 0 t1P0

/-- A cascade reference whose fit succeeds. -/
def cascIn0 : CascInput := { bachTrack := bachT0, fit := fitOk0, collisionId := 7 }

/-- A V0 input row with one associated cascade, accepted under the
default configuration and `env0`. -/
def vIn0 : V0Input :=
  { posTrack := posT0, negTrack := negT0, globalIndex := 5, fit := fitOk0,
    cascades := [cascIn0] }

/-- Transitivity of the unwritten-field comparison. -/
theorem unwrittenEq_trans {a b c : V0CandState} (h1 : unwrittenEq a b)
    (h2 : unwrittenEq b c) : unwrittenEq a c := by
  unfold unwrittenEq at h1 h2 ⊢
  obtain ⟨a1, a2, a3, a4, a5, a6, a7, a8⟩ := h1
  obtain ⟨b1, b2, b3, b4, b5, b6, b7, b8⟩ := h2
  exact ⟨a1.trans b1, a2.trans b2, a3.trans b3, a4.trans b4, a5.trans b5,
         a6.trans b6, a7.trans b7, a8.trans b8⟩

/-- Frame lemma: one `buildV0Candidate` call leaves the eight unwritten
fields of the member struct as it found them. -/
theorem buildV0Candidate_frameU (env : Env) (cfg : Config) (pv : Vec3)
    (p n : TrackIn) (l : Bool) (fit : FitOutcome) (s : V0CandState) :
    unwrittenEq (buildV0Candidate env cfg pv p n l fit s).state s := by
  unfold unwrittenEq
  cases fit <;> simp only [buildV0Candidate] <;> split_ifs <;> simp

/-- Acceptance lemma: a passed `buildV0Candidate` call fixes the
daughter momenta, the pointing-angle and radius fields together with
their defining expressions and configured bounds, and the two mass
hypotheses. -/
theorem buildV0Candidate_passedFacts (env : Env) (cfg : Config) (pv : Vec3)
    (p n : TrackIn) (l : Bool) (fit : FitOutcome) (s : V0CandState)
    (h : (buildV0Candidate env cfg pv p n l fit s).passed = true) :
    (buildV0Candidate env cfg pv p n l fit s).state.posP = p.pGlo ∧
    (buildV0Candidate env cfg pv p n l fit s).state.negP = n.pGlo ∧
    (buildV0Candidate env cfg pv p n l fit s).state.cosPA =
      env.cpa pv (buildV0Candidate env cfg pv p n l fit s).state.pos
        (Vec3.add (buildV0Candidate env cfg pv p n l fit s).state.posP
          (buildV0Candidate env cfg pv p n l fit s).state.negP) ∧
    cfg.v0cospa ≤ (buildV0Candidate env cfg pv p n l fit s).state.cosPA ∧
    (buildV0Candidate env cfg pv p n l fit s).state.V0radius =
      env.sqrtSumOfSquares (buildV0Candidate env cfg pv p n l fit s).state.pos.x
        (buildV0Candidate env cfg pv p n l fit s).state.pos.y ∧
    cfg.v0radius ≤ (buildV0Candidate env cfg pv p n l fit s).state.V0radius ∧
    (buildV0Candidate env cfg pv p n l fit s).state.lambdaMass =
      env.invMassTwoProng (buildV0Candidate env cfg pv p n l fit s).state.posP
        (buildV0Candidate env cfg pv p n l fit s).state.negP env.massProton env.massPiPlus ∧
    (buildV0Candidate env cfg pv p n l fit s).state.antilambdaMass =
      env.invMassTwoProng (buildV0Candidate env cfg pv p n l fit s).state.posP
        (buildV0Candidate env cfg pv p n l fit s).state.negP env.massPiPlus env.massProton := by
  cases fit with
  | throws => simp only [buildV0Candidate] at h ⊢; split_ifs at h <;> simp_all
  | ok nCand vtx chi2 t1 =>
    simp only [buildV0Candidate] at h ⊢
    split_ifs at h ⊢ <;> simp_all <;> linarith

/-- The cascade loop touches none of the V0-side accumulator fields. -/
theorem processCascades_frame (env : Env) (cfg : Config) (gi : Int) :
    ∀ (cs : List CascInput) (acc : BuildOutput),
    (processCascades env cfg gi cs acc).v0Rows = acc.v0Rows ∧
    (processCascades env cfg gi cs acc).v0State = acc.v0State ∧
    (processCascades env cfg gi cs acc).v0Fills = acc.v0Fills ∧
    (processCascades env cfg gi cs acc).v0FitCalls = acc.v0FitCalls ∧
    (processCascades env cfg gi cs acc).caughtExceptions = acc.caughtExceptions ∧
    (processCascades env cfg gi cs acc).v0CovRows = acc.v0CovRows
  | [], acc => by simp [processCascades]
  | ci :: rest, acc => by
    by_cases hab : acc.aborted
    · simp [processCascades, hab]
    · simp only [processCascades, hab, if_false]
      split_ifs <;>
        first
          | exact processCascades_frame env cfg gi rest _
          | simp_all

/-- Component form of the cascade-loop frame lemma, for rewriting. -/
theorem processCascades_v0State (env : Env) (cfg : Config) (gi : Int)
    (cs : List CascInput) (acc : BuildOutput) :
    (processCascades env cfg gi cs acc).v0State = acc.v0State :=
  (processCascades_frame env cfg gi cs acc).2.1

/-- Component form of the cascade-loop frame lemma, for rewriting. -/
theorem processCascades_v0Rows (env : Env) (cfg : Config) (gi : Int)
    (cs : List CascInput) (acc : BuildOutput) :
    (processCascades env cfg gi cs acc).v0Rows = acc.v0Rows :=
  (processCascades_frame env cfg gi cs acc).1

/-- A cascade build whose fit outcome is not an exception never lets
an exception escape. -/
theorem casc_no_throw_no_escape (env : Env) (cfg : Config) (bach : TrackIn)
    (v0c : V0CandState) (fit : FitOutcome) (s : CascCandState)
    (h : fit ≠ FitOutcome.throws) :
    (buildCascadeCandidate env cfg bach v0c fit s).escaped = false := by
  cases fit with
  | throws => exact absurd rfl h
  | ok nCand vtx chi2 t1 =>
    simp only [buildCascadeCandidate]
    split_ifs <;> simp

/-- The cascade loop never aborts when no cascade fit outcome is an
exception. -/
theorem processCascades_noabort (env : Env) (cfg : Config) (gi : Int) :
    ∀ (cs : List CascInput) (acc : BuildOutput),
    (∀ c ∈ cs, c.fit ≠ FitOutcome.throws) → acc.aborted = false →
    (processCascades env cfg gi cs acc).aborted = false
  | [], acc => by simp [processCascades]
  | ci :: rest, acc => by
    intro hthrow hab
    have hesc : (buildCascadeCandidate env cfg ci.bachTrack acc.v0State ci.fit acc.cascState).escaped = false :=
      casc_no_throw_no_escape env cfg ci.bachTrack acc.v0State ci.fit acc.cascState
        (hthrow ci (by simp))
    have hrest : ∀ c ∈ rest, c.fit ≠ FitOutcome.throws := fun c hc => hthrow c (by simp [hc])
    simp only [processCascades, hab, if_false, hesc, Bool.false_eq_true]
    split_ifs <;> exact processCascades_noabort env cfg gi rest _ hrest rfl

/-- Every cascade row the cascade loop appends carries the daughter
DCA fields of the current `v0candidate` member struct. -/
theorem processCascades_rows (env : Env) (cfg : Config) (gi : Int) (d e : ℚ) :
    ∀ (cs : List CascInput) (acc : BuildOutput),
    acc.v0State.posDCAxy = d → acc.v0State.negDCAxy = e →
    (∀ row ∈ acc.cascRows, row.posDCAxy = d ∧ row.negDCAxy = e) →
    ∀ row ∈ (processCascades env cfg gi cs acc).cascRows,
      row.posDCAxy = d ∧ row.negDCAxy = e
  | [], acc => by
    intro _ _ hrows
    simpa [processCascades] using hrows
  | ci :: rest, acc => by
    intro hd he hrows
    by_cases hab : acc.aborted
    · simpa [processCascades, hab] using hrows
    · cases hesc : (buildCascadeCandidate env cfg ci.bachTrack acc.v0State ci.fit acc.cascState).escaped with
      | true =>
        simp only [processCascades, hab, if_false, hesc, if_true]
        exact processCascades_rows env cfg gi d e rest _ hd he hrows
      | false =>
        cases hpass : (buildCascadeCandidate env cfg ci.bachTrack acc.v0State ci.fit acc.cascState).passed with
        | false =>
          simp only [processCascades, hab, hesc, hpass, if_false, if_true,
            Bool.false_eq_true, ite_true, ite_false]
          exact processCascades_rows env cfg gi d e rest _ hd he hrows
        | true =>
          simp only [processCascades, hab, hesc, hpass, if_false, if_true,
            Bool.false_eq_true, ite_true, ite_false]
          refine processCascades_rows env cfg gi d e rest _ hd he ?_
          intro row hrow
          rcases List.mem_append.mp hrow with hm | hm
          · exact hrows row hm
          · have hrw : row = mkCascRow gi ci acc.v0State
                (buildCascadeCandidate env cfg ci.bachTrack acc.v0State ci.fit acc.cascState).state :=
              List.mem_singleton.mp hm
            subst hrw
            exact ⟨hd, he⟩

/-- The V0 loop preserves the unwritten fields of the member struct
and stamps them into every emitted row. -/
theorem processV0s_unwritten (env : Env) (cfg : Config) (pv : Vec3) (l : Bool)
    (s0 : V0CandState) :
    ∀ (v0s : List V0Input) (acc : BuildOutput),
    unwrittenEq acc.v0State s0 →
    (∀ row ∈ acc.v0Rows, rowUnwrittenEq row s0) →
    (∀ row ∈ acc.cascRows, row.posDCAxy = s0.posDCAxy ∧ row.negDCAxy = s0.negDCAxy) →
    unwrittenEq (processV0s env cfg pv l v0s acc).v0State s0 ∧
    (∀ row ∈ (processV0s env cfg pv l v0s acc).v0Rows, rowUnwrittenEq row s0) ∧
    (∀ row ∈ (processV0s env cfg pv l v0s acc).cascRows,
      row.posDCAxy = s0.posDCAxy ∧ row.negDCAxy = s0.negDCAxy)
  | [], acc => by
    intro hst hrows hcrows
    simp only [processV0s]
    exact ⟨hst, hrows, hcrows⟩
  | vi :: rest, acc => by
    intro hst hrows hcrows
    have hst2 : unwrittenEq
        (buildV0Candidate env cfg pv vi.posTrack vi.negTrack l vi.fit acc.v0State).state s0 :=
      unwrittenEq_trans
        (buildV0Candidate_frameU env cfg pv vi.posTrack vi.negTrack l vi.fit acc.v0State) hst
    by_cases hab : acc.aborted
    · simp only [processV0s, hab, if_true]
      exact ⟨hst, hrows, hcrows⟩
    · cases hpass : (buildV0Candidate env cfg pv vi.posTrack vi.negTrack l vi.fit acc.v0State).passed with
      | false =>
        simp only [processV0s, hab, hpass, if_false, Bool.false_eq_true, ite_true, ite_false]
        exact processV0s_unwritten env cfg pv l s0 rest _ hst2 hrows hcrows
      | true =>
        simp only [processV0s, hab, hpass, if_false, if_true, Bool.false_eq_true,
          ite_true, ite_false]
        have hrows2 : ∀ row ∈ acc.v0Rows ++
            [mkV0Row (buildV0Candidate env cfg pv vi.posTrack vi.negTrack l vi.fit acc.v0State).state],
            rowUnwrittenEq row s0 := by
          intro row hrow
          rcases List.mem_append.mp hrow with hm | hm
          · exact hrows row hm
          · have hrw : row = mkV0Row
                (buildV0Candidate env cfg pv vi.posTrack vi.negTrack l vi.fit acc.v0State).state :=
              List.mem_singleton.mp hm
            subst hrw
            exact hst2
        by_cases hcc : cfg.createCascades = 0
        · simp only [hcc, ite_true, eq_self_iff_true, if_true]
          exact processV0s_unwritten env cfg pv l s0 rest _ hst2 hrows2 hcrows
        · simp only [hcc, ite_false, if_false]
          refine processV0s_unwritten env cfg pv l s0 rest _ ?_ ?_ ?_
          · rw [processCascades_v0State]
            exact hst2
          · rw [processCascades_v0Rows]
            exact hrows2
          · exact processCascades_rows env cfg vi.globalIndex s0.posDCAxy s0.negDCAxy
              vi.cascades _ hst2.2.2.2.2.2.2.1 hst2.2.2.2.2.2.2.2 hcrows

/-- Every row the V0 loop appends satisfies the pointing-angle and
radius bounds of the configuration. -/
theorem processV0s_cospaRadius (env : Env) (cfg : Config) (pv : Vec3) (l : Bool) :
    ∀ (v0s : List V0Input) (acc : BuildOutput),
    (∀ row ∈ acc.v0Rows,
      cfg.v0cospa ≤ env.cpa pv row.pos (Vec3.add row.posP row.negP) ∧
      cfg.v0radius ≤ env.sqrtSumOfSquares row.pos.x row.pos.y) →
    ∀ row ∈ (processV0s env cfg pv l v0s acc).v0Rows,
      cfg.v0cospa ≤ env.cpa pv row.pos (Vec3.add row.posP row.negP) ∧
      cfg.v0radius ≤ env.sqrtSumOfSquares row.pos.x row.pos.y
  | [], acc => by
    intro hrows
    simpa [processV0s] using hrows
  | vi :: rest, acc => by
    intro hrows
    by_cases hab : acc.aborted
    · simpa [processV0s, hab] using hrows
    · cases hpass : (buildV0Candidate env cfg pv vi.posTrack vi.negTrack l vi.fit acc.v0State).passed with
      | false =>
        simp only [processV0s, hab, hpass, if_false, Bool.false_eq_true, ite_true, ite_false]
        exact processV0s_cospaRadius env cfg pv l rest _ hrows
      | true =>
        simp only [processV0s, hab, hpass, if_false, if_true, Bool.false_eq_true,
          ite_true, ite_false]
        have hrows2 : ∀ row ∈ acc.v0Rows ++
            [mkV0Row (buildV0Candidate env cfg pv vi.posTrack vi.negTrack l vi.fit acc.v0State).state],
            cfg.v0cospa ≤ env.cpa pv row.pos (Vec3.add row.posP row.negP) ∧
            cfg.v0radius ≤ env.sqrtSumOfSquares row.pos.x row.pos.y := by
          intro row hrow
          rcases List.mem_append.mp hrow with hm | hm
          · exact hrows row hm
          · have hrw : row = mkV0Row
                (buildV0Candidate env cfg pv vi.posTrack vi.negTrack l vi.fit acc.v0State).state :=
              List.mem_singleton.mp hm
            subst hrw
            obtain ⟨-, -, hcdef, hcge, hrdef, hrge, -, -⟩ :=
              buildV0Candidate_passedFacts env cfg pv vi.posTrack vi.negTrack l vi.fit
                acc.v0State hpass
            exact ⟨hcdef ▸ hcge, hrdef ▸ hrge⟩
        by_cases hcc : cfg.createCascades = 0
        · simp only [hcc, ite_true, eq_self_iff_true, if_true]
          exact processV0s_cospaRadius env cfg pv l rest _ hrows2
        · simp only [hcc, ite_false, if_false]
          refine processV0s_cospaRadius env cfg pv l rest _ ?_
          rw [processCascades_v0Rows]
          exact hrows2

/-- The V0 stage of the builder reads no configurable that the
`createCascades` flag update touches. -/
theorem buildV0Candidate_createCascades_indep (env : Env) (cfg : Config) (x : Int)
    (pv : Vec3) (p n : TrackIn) (l : Bool) (fit : FitOutcome) (s : V0CandState) :
    buildV0Candidate env { cfg with createCascades := x } pv p n l fit s =
      buildV0Candidate env cfg pv p n l fit s := rfl

/-- With `createCascades == 0` the V0 loop leaves every cascade-side
accumulator field untouched. -/
theorem processV0s_cascskip (env : Env) (cfg : Config) (pv : Vec3) (l : Bool)
    (h0 : cfg.createCascades = 0) :
    ∀ (v0s : List V0Input) (acc : BuildOutput),
    (processV0s env cfg pv l v0s acc).cascFills = acc.cascFills ∧
    (processV0s env cfg pv l v0s acc).cascFitCalls = acc.cascFitCalls ∧
    (processV0s env cfg pv l v0s acc).cascRows = acc.cascRows ∧
    (processV0s env cfg pv l v0s acc).aborted = acc.aborted
  | [], acc => by simp [processV0s]
  | vi :: rest, acc => by
    by_cases hab : acc.aborted
    · simp [processV0s, hab]
    · cases hpass : (buildV0Candidate env cfg pv vi.posTrack vi.negTrack l vi.fit acc.v0State).passed with
      | false =>
        simp only [processV0s, hab, hpass, if_false, Bool.false_eq_true, ite_true, ite_false]
        exact processV0s_cascskip env cfg pv l h0 rest _
      | true =>
        simp only [processV0s, hab, hpass, if_false, if_true, Bool.false_eq_true,
          ite_true, ite_false, h0]
        exact processV0s_cascskip env cfg pv l h0 rest _

/-- The emitted V0 rows do not depend on the `createCascades` flag, as
long as no cascade fit outcome is an exception (an uncaught exception
in the enabled cascade stage would abort the remaining V0s). -/
theorem processV0s_v0Rows_indep (env : Env) (cfg : Config) (pv : Vec3) (l : Bool) (c : Int) :
    ∀ (v0s : List V0Input) (acc1 acc2 : BuildOutput),
    (∀ i ∈ v0s, ∀ cc ∈ i.cascades, cc.fit ≠ FitOutcome.throws) →
    acc1.v0State = acc2.v0State → acc1.v0Rows = acc2.v0Rows →
    acc1.aborted = false → acc2.aborted = false →
    (processV0s env { cfg with createCascades := 0 } pv l v0s acc1).v0Rows =
      (processV0s env { cfg with createCascades := c } pv l v0s acc2).v0Rows
  | [], acc1, acc2 => by
    intro _ _ hrows _ _
    simpa [processV0s] using hrows
  | vi :: rest, acc1, acc2 => by
    intro hthrow hv hrows h1 h2
    have hrest : ∀ i ∈ rest, ∀ cc ∈ i.cascades, cc.fit ≠ FitOutcome.throws :=
      fun i hi => hthrow i (List.mem_cons_of_mem vi hi)
    have hvi : ∀ cc ∈ vi.cascades, cc.fit ≠ FitOutcome.throws :=
      hthrow vi (List.mem_cons_self vi rest)
    have hr : buildV0Candidate env { cfg with createCascades := c } pv vi.posTrack
          vi.negTrack l vi.fit acc2.v0State =
        buildV0Candidate env { cfg with createCascades := 0 } pv vi.posTrack
          vi.negTrack l vi.fit acc1.v0State := by
      rw [buildV0Candidate_createCascades_indep env cfg c,
        buildV0Candidate_createCascades_indep env cfg 0, hv]
    simp only [processV0s, h1, h2, Bool.false_eq_true, if_false, ite_false, hr]
    cases hpass : (buildV0Candidate env { cfg with createCascades := 0 } pv vi.posTrack
        vi.negTrack l vi.fit acc1.v0State).passed with
    | false =>
      simp only [hpass, Bool.false_eq_true, if_false, ite_false]
      exact processV0s_v0Rows_indep env cfg pv l c rest _ _ hrest rfl hrows rfl rfl
    | true =>
      simp only [hpass, if_true, ite_true]
      by_cases hc : c = 0
      · subst hc
        simp only [ite_true, eq_self_iff_true, if_true]
        refine processV0s_v0Rows_indep env cfg pv l 0 rest _ _ hrest rfl ?_ rfl rfl
        simp only [hrows]
      · have hcc2 : ({ cfg with createCascades := c } : Config).createCascades = c := rfl
        simp only [hcc2, hc, eq_self_iff_true, if_true, if_false, ite_true, ite_false]
        refine processV0s_v0Rows_indep env cfg pv l c rest _ _ hrest ?_ ?_ rfl ?_
        · rw [processCascades_v0State]
        · rw [processCascades_v0Rows]
          simp only [hrows]
        · refine processCascades_noabort env _ vi.globalIndex vi.cascades _ hvi rfl

/-- Membership in the multimap after one insertion. -/
theorem mmInsert_mem (m : List (Int × Int)) (p q : Int × Int) :
    q ∈ mmInsert m p ↔ q = p ∨ q ∈ m := by
  induction m with
  | nil => simp [mmInsert]
  | cons r m ih =>
    simp only [mmInsert]
    split_ifs with h
    · simp [List.mem_cons]
    · simp only [List.mem_cons, ih]
      tauto

/-- Insertion keeps the multimap sorted by key. -/
theorem mmInsert_pairwise (m : List (Int × Int)) (p : Int × Int)
    (hm : m.Pairwise (fun a b => a.1 ≤ b.1)) :
    (mmInsert m p).Pairwise (fun a b => a.1 ≤ b.1) := by
  induction m with
  | nil => simp [mmInsert]
  | cons r m ih =>
    rcases List.pairwise_cons.mp hm with ⟨hr, hm2⟩
    simp only [mmInsert]
    split_ifs with h
    · refine List.pairwise_cons.mpr ⟨?_, hm⟩
      intro a ha
      rcases List.mem_cons.mp ha with rfl | ha2
      · exact le_of_lt h
      · exact le_trans (le_of_lt h) (hr a ha2)
    · refine List.pairwise_cons.mpr ⟨?_, ih hm2⟩
      intro a ha
      rcases (mmInsert_mem m p a).mp ha with rfl | ha2
      · exact not_lt.mp h
      · exact hr a ha2

/-- Stability of the multimap insertion: on a key-sorted multimap, the
entries of one key are the entries that were inserted with that key,
in insertion order. -/
theorem mmInsert_filter (k : Int) (p : Int × Int) :
    ∀ (m : List (Int × Int)), m.Pairwise (fun a b => a.1 ≤ b.1) →
    (mmInsert m p).filter (fun q => decide (q.1 = k)) =
      if p.1 = k then m.filter (fun q => decide (q.1 = k)) ++ [p]
      else m.filter (fun q => decide (q.1 = k)) := by
  intro m
  induction m with
  | nil =>
    intro _
    by_cases hpk : p.1 = k <;> simp [mmInsert, List.filter_cons, hpk]
  | cons r m ih =>
    intro hm
    rcases List.pairwise_cons.mp hm with ⟨hr, hm2⟩
    simp only [mmInsert]
    split_ifs with h hpk hpk2
    · have hnil : (r :: m).filter (fun q => decide (q.1 = k)) = [] := by
        rw [List.filter_eq_nil_iff]
        intro a ha
        have hak : k < a.1 := by
          rcases List.mem_cons.mp ha with rfl | ha2
          · exact hpk ▸ h
          · exact lt_of_lt_of_le (hpk ▸ h) (hr a ha2)
        simp only [decide_eq_true_eq]
        omega
      simp [List.filter_cons, hnil, hpk]
    · simp [List.filter_cons, hpk]
    · by_cases hrk : r.1 = k <;> simp [List.filter_cons, ih hm2, hpk2, hrk]
    · by_cases hrk : r.1 = k <;> simp [List.filter_cons, ih hm2, hpk2, hrk]

/-- Folding the whole cascade list into the multimap and filtering one
key yields exactly the values inserted under that key, in input
order. -/
theorem foldl_mmInsert_filter (k : Int) :
    ∀ (cascades : List CascTableIn) (m : List (Int × Int)),
    m.Pairwise (fun a b => a.1 ≤ b.1) →
    ((cascades.foldl (fun acc c => mmInsert acc (c.v0GlobalIndex, c.globalIndex)) m).filter
        (fun q => decide (q.1 = k))).map (fun q => q.2) =
      (m.filter (fun q => decide (q.1 = k))).map (fun q => q.2) ++
        (cascades.filter (fun c => decide (c.v0GlobalIndex = k))).map CascTableIn.globalIndex
  | [], m => by simp [List.foldl]
  | c :: cs, m => by
    intro hm
    simp only [List.foldl, List.filter_cons]
    rw [foldl_mmInsert_filter k cs _ (mmInsert_pairwise m _ hm), mmInsert_filter k _ m hm]
    by_cases hck : c.v0GlobalIndex = k <;> simp [hck]

/-- C1: in the cascade daughter-pair-DCA gate, after
`cascadecandidate.dcacascdau` is computed as the square root of the
fit chi-square, the rejection decision compares the cascade transverse
radius (`cascadecandidate.cascradius`) against the `dcacascdau`
threshold rather than the computed DCA value: every candidate reaching
this gate is rejected if and only if its radius is below the
configured `dcacascdau`, whatever the chi-square (and hence the DCA)
value is. -/
theorem c1_cascDcaGateComparesRadius (env : Env) (cfg : Config) (bach : TrackIn)
    (v0c : V0CandState) (nCand : Int) (vtx : Vec3) (chi2 : ℚ) (t1P : Vec3)
    (s : CascCandState)
    (hdca : cfg.dcabachtopv ≤ bach.dcaXY)
    (hmassneg : ¬((if bach.signed1Pt > 0 then (1 : Int) else -1) < 0 ∧
        |v0c.lambdaMass - 1.116| > cfg.lambdaMassWindow))
    (hmasspos : ¬((if bach.signed1Pt > 0 then (1 : Int) else -1) > 0 ∧
        |v0c.antilambdaMass - 1.116| > cfg.lambdaMassWindow))
    (hn : nCand ≠ 0)
    (hrad : cfg.cascradius ≤ env.sqrtSumOfSquares vtx.x vtx.y) :
    (buildCascadeCandidate env cfg bach v0c (FitOutcome.ok nCand vtx chi2 t1P) s).state.dcacascdau
        = env.sqrt chi2 ∧
    (buildCascadeCandidate env cfg bach v0c (FitOutcome.ok nCand vtx chi2 t1P) s).state.cascradius
        = env.sqrtSumOfSquares vtx.x vtx.y ∧
    ((buildCascadeCandidate env cfg bach v0c (FitOutcome.ok nCand vtx chi2 t1P) s).passed = false ↔
      env.sqrtSumOfSquares vtx.x vtx.y < cfg.dcacascdau) := by
  have hlt : ¬(bach.dcaXY < cfg.dcabachtopv) := not_lt.mpr hdca
  have hr : ¬(env.sqrtSumOfSquares vtx.x vtx.y < cfg.cascradius) := not_lt.mpr hrad
  simp only [buildCascadeCandidate, hlt, if_false]
  split_ifs <;> simp_all

/-- Witness for C1 at a concrete input: with the default configuration
and a candidate reaching the gate with radius 10 and threshold 1, the
gate accepts, matching the radius comparison. -/
theorem c1_witness :
    (buildCascadeCandidate env0 cfg0 bachT0 v0M (FitOutcome.ok 1 vtx0 0 t1P0) cascZero).passed = false ↔
      env0.sqrtSumOfSquares vtx0.x vtx0.y < cfg0.dcacascdau :=
  (c1_cascDcaGateComparesRadius env0 cfg0 bachT0 v0M 1 vtx0 0 t1P0 cascZero
    (by norm_num [cfg0, bachT0])
    (by norm_num [bachT0, v0M, v0Zero, cfg0])
    (by norm_num [bachT0, v0M, v0Zero, cfg0])
    (by decide)
    (by norm_num [cfg0, env0])).2.2

/-- C2, counterexample: a cascade build whose bachelor passes the
pre-fit gates and whose fit raises a numerical exception lets the
exception escape to the caller (`escaped = true`): the cascade fit
call of the source has no try block, so the claim that the caller
never observes a propagated exception in both fits is false. -/
theorem c2_counterexample :
    (buildCascadeCandidate env0 cfg0 bachT0 v0M FitOutcome.throws cascZero).escaped = true := by
  norm_num [buildCascadeCandidate, env0, cfg0, bachT0, v0M, v0Zero, cascZero]

/-- C2, amended: in the V0 fit, a numerical exception raised inside
the minimizer is caught at the fit call, counted in the
`hCaughtExceptions` diagnostics channel and treated as the
`nCand == 0` outcome, so the call returns false normally; the cascade
fit call, however, has no handler, and an exception raised there
propagates out of `buildCascadeCandidate`. -/
theorem c2_fitExceptionHandling :
    (∀ (env : Env) (cfg : Config) (pv : Vec3) (p n : TrackIn) (l : Bool) (s : V0CandState),
      (buildV0Candidate env cfg pv p n l FitOutcome.throws s).passed = false ∧
      ((buildV0Candidate env cfg pv p n l FitOutcome.throws s).fitInvoked = true →
        (buildV0Candidate env cfg pv p n l FitOutcome.throws s).caughtException = true)) ∧
    (∀ (env : Env) (cfg : Config) (bach : TrackIn) (v0c : V0CandState) (s : CascCandState),
      (buildCascadeCandidate env cfg bach v0c FitOutcome.throws s).fitInvoked = true →
      (buildCascadeCandidate env cfg bach v0c FitOutcome.throws s).escaped = true) := by
  constructor
  · intro env cfg pv p n l s
    simp only [buildV0Candidate]
    split_ifs <;> simp
  · intro env cfg bach v0c s
    simp only [buildCascadeCandidate]
    split_ifs <;> simp

/-- C3: whenever the positive daughter has `|dcaXY|` below
`dcapostopv` or the negative daughter has `|dcaXY|` below
`dcanegtopv`, the V0 pipeline rejects the pair and the fitter is never
invoked for it. -/
theorem c3_dcaGateRejectsBeforeFit (env : Env) (cfg : Config) (pv : Vec3)
    (p n : TrackIn) (l : Bool) (fit : FitOutcome) (s : V0CandState)
    (h : |p.dcaXY| < cfg.dcapostopv ∨ |n.dcaXY| < cfg.dcanegtopv) :
    (buildV0Candidate env cfg pv p n l fit s).passed = false ∧
    (buildV0Candidate env cfg pv p n l fit s).fitInvoked = false := by
  cases fit <;> simp only [buildV0Candidate] <;> split_ifs <;> simp_all

/-- Witness for C3 at a concrete input: a positive daughter with
`|dcaXY| = 0.01` below the default threshold 0.1 is rejected without
a fitter call. -/
theorem c3_witness :
    (buildV0Candidate env0 cfg0 pv0 posLowDca negT0 true fitOk0 v0Zero).passed = false ∧
    (buildV0Candidate env0 cfg0 pv0 posLowDca negT0 true fitOk0 v0Zero).fitInvoked = false :=
  c3_dcaGateRejectsBeforeFit env0 cfg0 pv0 posLowDca negT0 true fitOk0 v0Zero
    (Or.inl (by norm_num [posLowDca, posT0, cfg0, abs_of_pos]))

/-- C4: every V0 accepted by the pipeline, and hence every emitted
`v0data` row, has cosine of pointing angle (computed from the primary
vertex, the fitted decay vertex and the summed daughter momenta) at
least `v0cospa`, and transverse decay radius (computed from the x and
y of the fitted vertex) at least `v0radius`. -/
theorem c4_acceptedV0CosPaRadius :
    (∀ (env : Env) (cfg : Config) (pv : Vec3) (p n : TrackIn) (l : Bool)
       (fit : FitOutcome) (s : V0CandState),
      (buildV0Candidate env cfg pv p n l fit s).passed = true →
      cfg.v0cospa ≤ env.cpa pv (buildV0Candidate env cfg pv p n l fit s).state.pos
          (Vec3.add (buildV0Candidate env cfg pv p n l fit s).state.posP
            (buildV0Candidate env cfg pv p n l fit s).state.negP) ∧
      cfg.v0radius ≤ env.sqrtSumOfSquares
          (buildV0Candidate env cfg pv p n l fit s).state.pos.x
          (buildV0Candidate env cfg pv p n l fit s).state.pos.y) ∧
    (∀ (env : Env) (cfg : Config) (pv : Vec3) (l : Bool) (v0s : List V0Input)
       (s0 : V0CandState) (c0 : CascCandState),
      ∀ row ∈ (buildStrangenessTables env cfg pv l v0s s0 c0).v0Rows,
      cfg.v0cospa ≤ env.cpa pv row.pos (Vec3.add row.posP row.negP) ∧
      cfg.v0radius ≤ env.sqrtSumOfSquares row.pos.x row.pos.y) := by
  constructor
  · intro env cfg pv p n l fit s h
    obtain ⟨-, -, hcdef, hcge, hrdef, hrge, -, -⟩ :=
      buildV0Candidate_passedFacts env cfg pv p n l fit s h
    exact ⟨hcdef ▸ hcge, hrdef ▸ hrge⟩
  · intro env cfg pv l v0s s0 c0
    exact processV0s_cospaRadius env cfg pv l v0s (initialOutput s0 c0)
      (fun row hr => absurd hr (List.not_mem_nil row))

/-- C5: the V0-to-cascade index lookup returns exactly the identities
of the cascade candidates whose declared V0 parent equals the queried
V0, in input order, and the empty sequence (not an error) for a V0
referenced by no cascade; one table row per V0 is produced
accordingly. -/
theorem c5_v0ToCascIndexCorrect :
    (∀ (cascades : List CascTableIn) (v0 : Int),
      mmEqualRange (buildV0ToCascMap cascades) v0 =
        (cascades.filter (fun c => decide (c.v0GlobalIndex = v0))).map
          CascTableIn.globalIndex) ∧
    (∀ (cascades : List CascTableIn) (v0 : Int),
      (∀ c ∈ cascades, c.v0GlobalIndex ≠ v0) →
      mmEqualRange (buildV0ToCascMap cascades) v0 = []) ∧
    (∀ (v0s : List Int) (cascades : List CascTableIn),
      produceV0ToCascMapProcess v0s cascades =
        v0s.map (fun v0 => (cascades.filter (fun c => decide (c.v0GlobalIndex = v0))).map
          CascTableIn.globalIndex)) := by
  have hmain : ∀ (cascades : List CascTableIn) (v0 : Int),
      mmEqualRange (buildV0ToCascMap cascades) v0 =
        (cascades.filter (fun c => decide (c.v0GlobalIndex = v0))).map
          CascTableIn.globalIndex := by
    intro cascades v0
    have h := foldl_mmInsert_filter v0 cascades [] List.Pairwise.nil
    simpa [mmEqualRange, buildV0ToCascMap] using h
  refine ⟨hmain, ?_, ?_⟩
  · intro cascades v0 hnone
    rw [hmain]
    have hfil : cascades.filter (fun c => decide (c.v0GlobalIndex = v0)) = [] := by
      rw [List.filter_eq_nil_iff]
      intro c hc
      simpa using hnone c hc
    rw [hfil]
    rfl
  · intro v0s cascades
    unfold produceV0ToCascMapProcess
    simp only [hmain]

/-- C6: in the cascade charge-and-mass-window gate the bachelor charge
sign, computed from `signed1Pt`, selects the mass hypothesis: for a
candidate past the bachelor DCA gate, rejection at this gate (before
any cascade fit call) happens exactly when the charge is negative and
the stored lambda mass misses the 1.116 window, or the charge is
positive and the stored antilambda mass misses it; and the stored
masses of a passed V0 build are the invariant masses of the daughter
momenta under the (proton, pion) and (pion, proton) hypotheses. -/
theorem c6_cascadeMassWindowGate :
    (∀ (env : Env) (cfg : Config) (bach : TrackIn) (v0c : V0CandState)
       (fit : FitOutcome) (s : CascCandState),
      cfg.dcabachtopv ≤ bach.dcaXY →
      (buildCascadeCandidate env cfg bach v0c fit s).state.charge =
        (if bach.signed1Pt > 0 then 1 else -1) ∧
      (((buildCascadeCandidate env cfg bach v0c fit s).passed = false ∧
        (buildCascadeCandidate env cfg bach v0c fit s).escaped = false ∧
        (buildCascadeCandidate env cfg bach v0c fit s).fitInvoked = false ∧
        (buildCascadeCandidate env cfg bach v0c fit s).fills = [0.5, 1.5]) ↔
       (((buildCascadeCandidate env cfg bach v0c fit s).state.charge < 0 ∧
          |v0c.lambdaMass - 1.116| > cfg.lambdaMassWindow) ∨
        ((buildCascadeCandidate env cfg bach v0c fit s).state.charge > 0 ∧
          |v0c.antilambdaMass - 1.116| > cfg.lambdaMassWindow)))) ∧
    (∀ (env : Env) (cfg : Config) (pv : Vec3) (p n : TrackIn) (l : Bool)
       (fit : FitOutcome) (s : V0CandState),
      (buildV0Candidate env cfg pv p n l fit s).passed = true →
      (buildV0Candidate env cfg pv p n l fit s).state.lambdaMass =
        env.invMassTwoProng (buildV0Candidate env cfg pv p n l fit s).state.posP
          (buildV0Candidate env cfg pv p n l fit s).state.negP
          env.massProton env.massPiPlus ∧
      (buildV0Candidate env cfg pv p n l fit s).state.antilambdaMass =
        env.invMassTwoProng (buildV0Candidate env cfg pv p n l fit s).state.posP
          (buildV0Candidate env cfg pv p n l fit s).state.negP
          env.massPiPlus env.massProton) := by
  constructor
  · intro env cfg bach v0c fit s h
    have hlt : ¬(bach.dcaXY < cfg.dcabachtopv) := not_lt.mpr h
    cases fit with
    | throws =>
      simp only [buildCascadeCandidate, hlt, if_false]
      split_ifs <;> simp_all
    | ok nCand vtx chi2 t1 =>
      simp only [buildCascadeCandidate, hlt, if_false]
      split_ifs <;> simp_all
  · intro env cfg pv p n l fit s h
    obtain ⟨-, -, -, -, -, -, hl, ha⟩ :=
      buildV0Candidate_passedFacts env cfg pv p n l fit s h
    exact ⟨hl, ha⟩

/-- C7: with `createCascades == 0` the whole cascade stage is skipped:
no cascade fitter invocation, no cascade gate evaluation
(no `hCascadeCriteria` fill), no cascade row, no abort, even when
cascade references are attached to accepted V0s; and the emitted V0
rows equal those of the same run with any other `createCascades`
value, provided no cascade fit outcome is an exception. -/
theorem c7_disableCascadesSkipsStage (env : Env) (cfg : Config) (pv : Vec3)
    (l : Bool) (v0s : List V0Input) (s0 : V0CandState) (c0 : CascCandState) (c : Int)
    (hnothrow : ∀ i ∈ v0s, ∀ cc ∈ i.cascades, cc.fit ≠ FitOutcome.throws) :
    (buildStrangenessTables env { cfg with createCascades := 0 } pv l v0s s0 c0).cascFitCalls = 0 ∧
    (buildStrangenessTables env { cfg with createCascades := 0 } pv l v0s s0 c0).cascFills = [] ∧
    (buildStrangenessTables env { cfg with createCascades := 0 } pv l v0s s0 c0).cascRows = [] ∧
    (buildStrangenessTables env { cfg with createCascades := 0 } pv l v0s s0 c0).aborted = false ∧
    (buildStrangenessTables env { cfg with createCascades := 0 } pv l v0s s0 c0).v0Rows =
      (buildStrangenessTables env { cfg with createCascades := c } pv l v0s s0 c0).v0Rows := by
  have hskip := processV0s_cascskip env { cfg with createCascades := 0 } pv l rfl
    v0s (initialOutput s0 c0)
  exact ⟨hskip.2.1, hskip.1, hskip.2.2.1, hskip.2.2.2,
    processV0s_v0Rows_indep env cfg pv l c v0s (initialOutput s0 c0) (initialOutput s0 c0)
      hnothrow rfl rfl rfl rfl⟩

/-- Witness for C7 at a concrete input: one V0 with an attached
cascade reference, accepted under the default configuration. -/
theorem c7_witness :
    (buildStrangenessTables env0 { cfg0 with createCascades := 0 } pv0 true [vIn0] v0Zero cascZero).cascFitCalls = 0 ∧
    (buildStrangenessTables env0 { cfg0 with createCascades := 0 } pv0 true [vIn0] v0Zero cascZero).cascFills = [] ∧
    (buildStrangenessTables env0 { cfg0 with createCascades := 0 } pv0 true [vIn0] v0Zero cascZero).cascRows = [] ∧
    (buildStrangenessTables env0 { cfg0 with createCascades := 0 } pv0 true [vIn0] v0Zero cascZero).aborted = false ∧
    (buildStrangenessTables env0 { cfg0 with createCascades := 0 } pv0 true [vIn0] v0Zero cascZero).v0Rows =
      (buildStrangenessTables env0 { cfg0 with createCascades := 1 } pv0 true [vIn0] v0Zero cascZero).v0Rows :=
  c7_disableCascadesSkipsStage env0 cfg0 pv0 true [vIn0] v0Zero cascZero 1 (by decide)

/-- C8: the startup processing-mode check fires fatally exactly when
neither or both of the Run 2 and Run 3 process switches are enabled,
and does not fire when exactly one of them is enabled. -/
theorem c8_initModeCheck (doprocessRun2 doprocessRun3 : Bool) :
    (initModeCheckFatal doprocessRun2 doprocessRun3 = true ↔
      ((doprocessRun2 = false ∧ doprocessRun3 = false) ∨
       (doprocessRun2 = true ∧ doprocessRun3 = true))) ∧
    (initModeCheckFatal doprocessRun2 doprocessRun3 = false ↔
      doprocessRun2 ≠ doprocessRun3) := by
  cases doprocessRun2 <;> cases doprocessRun3 <;> simp [initModeCheckFatal]

/-- C9: `buildV0Candidate` never writes `posTrackId`, `negTrackId`,
`collisionId`, `globalIndex`, `posTrackX`, `negTrackX`, `posDCAxy` and
`negDCAxy` of the `v0candidate` member struct: after any call they
hold exactly the values they held before it, so every emitted V0 row
carries those eight unwritten values, and every emitted cascade row
carries the unwritten `posDCAxy` and `negDCAxy`, in the corresponding
columns. -/
theorem c9_unwrittenFields :
    (∀ (env : Env) (cfg : Config) (pv : Vec3) (p n : TrackIn) (l : Bool)
       (fit : FitOutcome) (s : V0CandState),
      (buildV0Candidate env cfg pv p n l fit s).state.posTrackId = s.posTrackId ∧
      (buildV0Candidate env cfg pv p n l fit s).state.negTrackId = s.negTrackId ∧
      (buildV0Candidate env cfg pv p n l fit s).state.collisionId = s.collisionId ∧
      (buildV0Candidate env cfg pv p n l fit s).state.globalIndex = s.globalIndex ∧
      (buildV0Candidate env cfg pv p n l fit s).state.posTrackX = s.posTrackX ∧
      (buildV0Candidate env cfg pv p n l fit s).state.negTrackX = s.negTrackX ∧
      (buildV0Candidate env cfg pv p n l fit s).state.posDCAxy = s.posDCAxy ∧
      (buildV0Candidate env cfg pv p n l fit s).state.negDCAxy = s.negDCAxy) ∧
    (∀ (env : Env) (cfg : Config) (pv : Vec3) (l : Bool) (v0s : List V0Input)
       (s0 : V0CandState) (c0 : CascCandState),
      (∀ row ∈ (buildStrangenessTables env cfg pv l v0s s0 c0).v0Rows,
        row.posTrackId = s0.posTrackId ∧ row.negTrackId = s0.negTrackId ∧
        row.collisionId = s0.collisionId ∧ row.globalIndex = s0.globalIndex ∧
        row.posTrackX = s0.posTrackX ∧ row.negTrackX = s0.negTrackX ∧
        row.posDCAxy = s0.posDCAxy ∧ row.negDCAxy = s0.negDCAxy) ∧
      (∀ row ∈ (buildStrangenessTables env cfg pv l v0s s0 c0).cascRows,
        row.posDCAxy = s0.posDCAxy ∧ row.negDCAxy = s0.negDCAxy)) := by
  constructor
  · intro env cfg pv p n l fit s
    exact buildV0Candidate_frameU env cfg pv p n l fit s
  · intro env cfg pv l v0s s0 c0
    have h := processV0s_unwritten env cfg pv l s0 v0s (initialOutput s0 c0)
      ⟨rfl, rfl, rfl, rfl, rfl, rfl, rfl, rfl⟩
      (fun row hr => absurd hr (List.not_mem_nil row))
      (fun row hr => absurd hr (List.not_mem_nil row))
    exact ⟨fun row hr => h.2.1 row hr, h.2.2⟩

/-- C10: the bachelor impact-parameter gate compares the signed
`dcaXY` of the bachelor against `dcabachtopv` without an absolute
value: every bachelor with `dcaXY < dcabachtopv`, including any
bachelor with negative `dcaXY` of arbitrarily large magnitude, is
rejected at this gate before any fit; the V0 daughter gate, in
contrast, applies `fabs`, so daughters with large negative `dcaXY`
reach the fitter. -/
theorem c10_bachelorDcaGateSigned :
    (∀ (env : Env) (cfg : Config) (bach : TrackIn) (v0c : V0CandState)
       (fit : FitOutcome) (s : CascCandState),
      bach.dcaXY < cfg.dcabachtopv →
      (buildCascadeCandidate env cfg bach v0c fit s).passed = false ∧
      (buildCascadeCandidate env cfg bach v0c fit s).escaped = false ∧
      (buildCascadeCandidate env cfg bach v0c fit s).fitInvoked = false ∧
      (buildCascadeCandidate env cfg bach v0c fit s).fills = [0.5] ∧
      (buildCascadeCandidate env cfg bach v0c fit s).state.bachDCAxy = bach.dcaXY) ∧
    (∀ (env : Env) (cfg : Config) (pv : Vec3) (p n : TrackIn) (l : Bool)
       (fit : FitOutcome) (s : V0CandState),
      cfg.isRun2 = 0 →
      cfg.mincrossedrows ≤ p.tpcNClsCrossedRows →
      cfg.mincrossedrows ≤ n.tpcNClsCrossedRows →
      cfg.dcapostopv ≤ |p.dcaXY| → cfg.dcanegtopv ≤ |n.dcaXY| →
      (buildV0Candidate env cfg pv p n l fit s).fitInvoked = true) := by
  constructor
  · intro env cfg bach v0c fit s h
    simp [buildCascadeCandidate, h]
  · intro env cfg pv p n l fit s hrun hcp hcn hp hn
    have hp2 : ¬(|p.dcaXY| < cfg.dcapostopv) := not_lt.mpr hp
    have hn2 : ¬(|n.dcaXY| < cfg.dcanegtopv) := not_lt.mpr hn
    have hc2 : ¬(p.tpcNClsCrossedRows < cfg.mincrossedrows) := not_lt.mpr hcp
    have hc3 : ¬(n.tpcNClsCrossedRows < cfg.mincrossedrows) := not_lt.mpr hcn
    cases fit <;>
      simp only [buildV0Candidate, hrun, hp2, hn2, hc2, hc3, ne_eq, not_true_eq_false,
        false_and, if_false, or_self, if_true] <;>
      split_ifs <;> simp

end StrangenessBuilder
